import Mathlib

/-!
Shallow embedding of the Workshop-Computer OSC-CV bridge firmware
(firmware/src/main.cpp): the inbound frame decoder with resynchronization,
the outbound telemetry encoder, the cross-core shared snapshot cell, the
decimated sampler tick, and one iteration of the core-0 USB loop.
Bytes are modelled as natural numbers (values 0..255 where the C type is
uint8_t); int16_t values are modelled as integers with explicit reduction
mod 2^16 where the C code truncates or reinterprets.
-/

-- ---------------------------------------------------------------------------
-- Protocol constants (main.cpp lines 45-54)
-- ---------------------------------------------------------------------------

/-- Inbound (host to device) sync marker, main.cpp line 51. -/
def SYNC_HOST_TO_DEVICE : Nat := 0xC0

/-- Outbound (device to host) sync marker, main.cpp line 52. -/
def SYNC_DEVICE_TO_HOST : Nat := 0xC1

/-- Inbound command frame length in bytes, main.cpp line 53. -/
def OUTPUT_PACKET_SIZE : Nat := 10

/-- Outbound telemetry frame length in bytes, main.cpp line 54. -/
def INPUT_PACKET_SIZE : Nat := 16

/-- Decimation constant for input reporting, main.cpp line 45. -/
def INPUT_REPORT_INTERVAL : Nat := 48

-- ---------------------------------------------------------------------------
-- Inbound decoder (usb_loop, main.cpp lines 158-191)
-- ---------------------------------------------------------------------------

/-- Decoder state: the bytes accumulated so far in pktBuf; the fill cursor
pktPos of the C code is the length of this list. -/
abbrev ParserState := List Nat

/-- One byte of the usb_loop inbound decoder (main.cpp lines 166-190): given
the accumulated bytes and the next byte b, return the new accumulation and
the completed 10-byte frame when one completes.
Branch 1 (line 169): mid-frame sync byte restarts accumulation at b.
Branch 2 (line 176): while empty, a non-sync byte is discarded.
Branch 3 (lines 180-190): append b; at 10 bytes the frame completes and the
cursor resets. -/
def decodeStep (p : ParserState) (b : Nat) : ParserState × Option (List Nat) :=
  if 0 < p.length ∧ b = SYNC_HOST_TO_DEVICE then
    ([b], none)
  else if p.length = 0 ∧ b ≠ SYNC_HOST_TO_DEVICE then
    ([], none)
  else
    let buf := p ++ [b]
    if buf.length = OUTPUT_PACKET_SIZE then ([], some buf) else (buf, none)

/-- Whether processing byte b from state p takes one of the two continue
statements of the usb_loop (main.cpp lines 172 and 177), which skip the
outbound send block for that loop iteration. -/
def skipsSend (p : ParserState) (b : Nat) : Bool :=
  (0 < p.length ∧ b = SYNC_HOST_TO_DEVICE) ∨ (p.length = 0 ∧ b ≠ SYNC_HOST_TO_DEVICE)

/-- Feed a list of bytes to the decoder one at a time, as the usb_loop does
(one getchar per iteration); returns the final state and the completed
frames in order of completion. -/
def decodeBytes (p : ParserState) : List Nat → ParserState × List (List Nat)
  | [] => (p, [])
  | b :: rest =>
    let s := decodeStep p b
    let t := decodeBytes s.1 rest
    (t.1, s.2.toList ++ t.2)

/-- Feed a partition of a byte stream into sub-chunks, chunk by chunk,
carrying the decoder state across chunk boundaries. -/
def processChunks (p : ParserState) : List (List Nat) → ParserState × List (List Nat)
  | [] => (p, [])
  | c :: cs =>
    let r := decodeBytes p c
    let t := processChunks r.1 cs
    (t.1, r.2 ++ t.2)

-- ---------------------------------------------------------------------------
-- Frame field extraction and output targets (main.cpp lines 34-35, 184-188)
-- ---------------------------------------------------------------------------

/-- Models (int16_t)(lo | (hi << 8)) for byte values lo and hi, as in
main.cpp lines 185-188: the 16-bit pattern reinterpreted as a signed
two's-complement value. -/
def int16OfBytes (lo hi : Nat) : Int :=
  let u := (lo ||| (hi <<< 8)) % 65536
  if u < 32768 then (u : Int) else (u : Int) - 65536

/-- The shared output-target set: target_flags and target[0..3]
(main.cpp lines 34-35). -/
structure OutputTargetSet where
  flags : Nat
  ch1 : Int
  ch2 : Int
  ch3 : Int
  ch4 : Int
deriving DecidableEq

/-- Copy a completed 10-byte packet into the targets (main.cpp lines 184-188):
flags from byte 1, four little-endian int16 channel values from byte pairs
(2,3), (4,5), (6,7), (8,9). -/
def setTargets (pkt : List Nat) : OutputTargetSet :=
  { flags := pkt.getD 1 0
    ch1 := int16OfBytes (pkt.getD 2 0) (pkt.getD 3 0)
    ch2 := int16OfBytes (pkt.getD 4 0) (pkt.getD 5 0)
    ch3 := int16OfBytes (pkt.getD 6 0) (pkt.getD 7 0)
    ch4 := int16OfBytes (pkt.getD 8 0) (pkt.getD 9 0) }

-- ---------------------------------------------------------------------------
-- Shared input snapshot cell (main.cpp lines 38-42, 126-135, 194-205)
-- ---------------------------------------------------------------------------

/-- The 8 input fields reported to the host: input_flags, input_cv[0..1],
input_audio[0..1], input_knobs[0..2] (main.cpp lines 38-41). -/
structure InputSnapshot where
  flags : Nat
  cv0 : Int
  cv1 : Int
  audio0 : Int
  audio1 : Int
  knob0 : Int
  knob1 : Int
  knob2 : Int
deriving DecidableEq

/-- The cross-core snapshot cell: the stored fields plus the inputs_ready
flag (main.cpp line 42). -/
structure SnapshotState where
  stored : InputSnapshot
  ready : Bool
deriving DecidableEq

/-- The publish step of ProcessMainSample (main.cpp lines 126-135): overwrite
all 8 fields, then set inputs_ready true as the final write. The previous
cell contents are discarded unconditionally. -/
def publishSnapshot (_old : SnapshotState) (s : InputSnapshot) : SnapshotState :=
  { stored := s, ready := true }

/-- The consume step of usb_loop (main.cpp lines 194-205): if inputs_ready is
observed true, clear it and read the 8 fields, returning the snapshot;
otherwise return nothing and leave the cell unchanged. -/
def takeSnapshotIfReady (st : SnapshotState) : SnapshotState × Option InputSnapshot :=
  if st.ready then ({ stored := st.stored, ready := false }, some st.stored)
  else (st, none)

-- ---------------------------------------------------------------------------
-- Outbound encoder (usb_loop, main.cpp lines 207-223)
-- ---------------------------------------------------------------------------

/-- Models (uint8_t)(x & 0xFF) for an int16 value x: the low byte of the
16-bit two's-complement pattern of x. -/
def lowByte (x : Int) : Nat := (x % 65536).toNat % 256

/-- Models (uint8_t)((x >> 8) & 0xFF) for an int16 value x: C arithmetic
right shift by 8 then masking, which is the high byte of the 16-bit
two's-complement pattern of x. -/
def highByte (x : Int) : Nat := (x % 65536).toNat / 256 % 256

/-- The outbound serializer (main.cpp lines 207-223): the 16-byte telemetry
packet, little-endian int16 fields. The flags field is a uint8_t variable
in the C code, hence the reduction mod 256. -/
def encodeSnapshot (s : InputSnapshot) : List Nat :=
  [SYNC_DEVICE_TO_HOST, s.flags % 256,
   lowByte s.cv0, highByte s.cv0,
   lowByte s.cv1, highByte s.cv1,
   lowByte s.audio0, highByte s.audio0,
   lowByte s.audio1, highByte s.audio1,
   lowByte s.knob0, highByte s.knob0,
   lowByte s.knob1, highByte s.knob1,
   lowByte s.knob2, highByte s.knob2]

/-- The inbound-style direct field extraction (the pattern of main.cpp lines
184-188) applied to the outbound 16-byte layout: the flags byte at index 1,
then seven little-endian int16 fields at byte pairs (2,3) through (14,15).
This mirrors how the host side reads a telemetry frame. -/
def extractSnapshotFields (pkt : List Nat) :
    Nat × Int × Int × Int × Int × Int × Int × Int :=
  (pkt.getD 1 0,
   int16OfBytes (pkt.getD 2 0) (pkt.getD 3 0),
   int16OfBytes (pkt.getD 4 0) (pkt.getD 5 0),
   int16OfBytes (pkt.getD 6 0) (pkt.getD 7 0),
   int16OfBytes (pkt.getD 8 0) (pkt.getD 9 0),
   int16OfBytes (pkt.getD 10 0) (pkt.getD 11 0),
   int16OfBytes (pkt.getD 12 0) (pkt.getD 13 0),
   int16OfBytes (pkt.getD 14 0) (pkt.getD 15 0))

-- ---------------------------------------------------------------------------
-- Sampler tick (OSCBridge::ProcessMainSample, main.cpp lines 102-137)
-- ---------------------------------------------------------------------------

/-- Hardware input readings available to one ProcessMainSample tick. -/
structure HwInputs where
  cvIn1 : Int
  cvIn2 : Int
  audioIn1 : Int
  audioIn2 : Int
  knobMain : Int
  knobX : Int
  knobY : Int
  pulseIn1 : Bool
  pulseIn2 : Bool
  switchVal : Nat
deriving DecidableEq

/-- The activity value passed to LedBrightness for one channel (main.cpp
lines 114-118): absolute value in 32-bit arithmetic, doubled, truncated to
uint16_t. The int32 product 2*|v| never overflows for int16 v, so only the
final uint16 truncation (mod 2^16) remains. -/
def ledValue (v : Int) : Nat := (2 * v.natAbs) % 65536

/-- The input_flags byte assembled at main.cpp lines 133-134: pulse bits 0-1
and the switch position in bits 2-3, stored into a uint8_t. -/
def hwFlags (hw : HwInputs) : Nat :=
  (((if hw.pulseIn1 then 1 else 0) ||| (if hw.pulseIn2 then 2 else 0)) |||
    (hw.switchVal <<< 2)) % 256

/-- The InputSnapshot written by the publish step at main.cpp lines 126-134. -/
def snapshotOfHw (hw : HwInputs) : InputSnapshot :=
  { flags := hwFlags hw
    cv0 := hw.cvIn1
    cv1 := hw.cvIn2
    audio0 := hw.audioIn1
    audio1 := hw.audioIn2
    knob0 := hw.knobMain
    knob1 := hw.knobX
    knob2 := hw.knobY }

/-- One ProcessMainSample tick (main.cpp lines 102-137), restricted to its
observable effects: the four LedBrightness values for channels 0..3, the new
reportCounter, and the snapshot published into the shared cell when the
decimation counter fires (lines 122-135). -/
def processMainSample (tg : OutputTargetSet) (counter : Nat) (hw : HwInputs) :
    List Nat × Nat × Option InputSnapshot :=
  let leds := [ledValue tg.ch1, ledValue tg.ch2, ledValue tg.ch3, ledValue tg.ch4]
  let c := counter + 1
  if INPUT_REPORT_INTERVAL ≤ c then (leds, 0, some (snapshotOfHw hw))
  else (leds, c, none)

/-- Run the sampler over a list of per-tick (targets, hardware inputs) pairs
starting from the given reportCounter; returns the final counter and, per
tick in order, whether that tick published a snapshot. -/
def runSamplerFrom (c : Nat) : List (OutputTargetSet × HwInputs) → Nat × List Bool
  | [] => (c, [])
  | x :: rest =>
    let r := processMainSample x.1 c x.2
    let t := runSamplerFrom r.2.1 rest
    (t.1, r.2.2.isSome :: t.2)

-- ---------------------------------------------------------------------------
-- One iteration of the core-0 USB loop (usb_loop, main.cpp lines 162-228)
-- ---------------------------------------------------------------------------

/-- The state touched by one usb_loop iteration: the decoder accumulation,
the shared output targets, and the shared snapshot cell. -/
structure BridgeState where
  parser : ParserState
  targets : OutputTargetSet
  snap : SnapshotState
deriving DecidableEq

/-- The outbound send block (main.cpp lines 194-227): if a snapshot is ready,
consume it, encode it and transmit the 16 bytes; otherwise transmit nothing. -/
def sendPhase (st : BridgeState) : BridgeState × List Nat :=
  let r := takeSnapshotIfReady st.snap
  match r.2 with
  | some s => ({ st with snap := r.1 }, encodeSnapshot s)
  | none => ({ st with snap := r.1 }, [])

/-- The inbound half of one usb_loop iteration (main.cpp lines 164-191) in
isolation: none models getchar_timeout_us returning PICO_ERROR_TIMEOUT;
some c models a received character, truncated to uint8_t at line 166. -/
def inboundStep (st : BridgeState) (inb : Option Nat) : BridgeState :=
  match inb with
  | none => st
  | some c =>
    let s := decodeStep st.parser (c % 256)
    { st with
        parser := s.1
        targets := (match s.2 with | some f => setTargets f | none => st.targets) }

/-- One full iteration of the usb_loop while-loop (main.cpp lines 162-228):
inbound byte handling first, then the send block — except that the continue
statements at lines 172 and 177 skip the send block for that iteration.
Returns the new state and the bytes transmitted during the iteration. -/
def usbLoopIter (st : BridgeState) (inb : Option Nat) : BridgeState × List Nat :=
  match inb with
  | none => sendPhase st
  | some c =>
    let b := c % 256
    let s := decodeStep st.parser b
    let st1 : BridgeState :=
      { st with
          parser := s.1
          targets := (match s.2 with | some f => setTargets f | none => st.targets) }
    if skipsSend st.parser b then (st1, []) else sendPhase st1

/-- The all-zero snapshot fields, matching the zero initializers of
main.cpp lines 38-41. -/
def zeroSnapshot : InputSnapshot :=
  { flags := 0, cv0 := 0, cv1 := 0, audio0 := 0, audio1 := 0,
    knob0 := 0, knob1 := 0, knob2 := 0 }

/-- The state at entry to the usb_loop: pktPos = 0 (line 160) and the
zero-valued shared globals (lines 34-42). -/
def initialBridgeState : BridgeState :=
  { parser := []
    targets := { flags := 0, ch1 := 0, ch2 := 0, ch3 := 0, ch4 := 0 }
    snap := { stored := zeroSnapshot, ready := false } }

-- ---------------------------------------------------------------------------
-- Auxiliary concrete states and predicates used by the theorems
-- ---------------------------------------------------------------------------

/-- The resynchronization test sequence of the spec: sync, one payload byte,
sync again mid-frame, then further payload bytes. -/
def resyncSeq : List Nat := [0xC0, 0x11, 0xC0, 0x22, 0, 0, 0, 0, 0, 0]

/-- Valid ranges for an InputSnapshot as produced by the hardware layer:
CV and audio readings in -2048..2047, knob readings in 0..4095, and a flags
byte built from two digital-input bits and a 2-bit switch position 0/1/2. -/
def validSnapshot (s : InputSnapshot) : Prop :=
  (-2048 ≤ s.cv0 ∧ s.cv0 ≤ 2047) ∧ (-2048 ≤ s.cv1 ∧ s.cv1 ≤ 2047) ∧
  (-2048 ≤ s.audio0 ∧ s.audio0 ≤ 2047) ∧ (-2048 ≤ s.audio1 ∧ s.audio1 ≤ 2047) ∧
  (0 ≤ s.knob0 ∧ s.knob0 ≤ 4095) ∧ (0 ≤ s.knob1 ∧ s.knob1 ≤ 4095) ∧
  (0 ≤ s.knob2 ∧ s.knob2 ≤ 4095) ∧
  (∃ d sw, d < 4 ∧ sw ≤ 2 ∧ s.flags = d + 4 * sw)

/-- Invariant of the decoder accumulation: the fill cursor (the length)
stays at most 9 — strictly below OUTPUT_PACKET_SIZE, so the write
pktBuf[pktPos++] is always in bounds — and a non-empty accumulation always
starts with the inbound sync marker. -/
def parserInvariant (p : ParserState) : Prop :=
  p.length ≤ 9 ∧ (0 < p.length → p.head? = some SYNC_HOST_TO_DEVICE)

/-- Hardware inputs all reading zero / off. -/
def hwZero : HwInputs :=
  { cvIn1 := 0, cvIn2 := 0, audioIn1 := 0, audioIn2 := 0, knobMain := 0,
    knobX := 0, knobY := 0, pulseIn1 := false, pulseIn2 := false, switchVal := 0 }

/-- The snapshot cell holding the zero snapshot with inputs_ready set. -/
def readyZeroSnap : SnapshotState := { stored := zeroSnapshot, ready := true }

/-- A bridge state with empty accumulation, zero targets and a ready
snapshot waiting to be transmitted. -/
def readyBridgeState : BridgeState :=
  { parser := []
    targets := { flags := 0, ch1 := 0, ch2 := 0, ch3 := 0, ch4 := 0 }
    snap := readyZeroSnap }

/-- One sampler tick with zero targets and zero hardware inputs. -/
def idleTick : OutputTargetSet × HwInputs :=
  ({ flags := 0, ch1 := 0, ch2 := 0, ch3 := 0, ch4 := 0 }, hwZero)

/-- The snapshot of the spec concrete outbound scenario: continuous
readings (100, -50), audio (0, 0), knobs (4095, 0, 2048), flags 0b0110. -/
def specSnapshot : InputSnapshot :=
  { flags := 6, cv0 := 100, cv1 := -50, audio0 := 0, audio1 := 0,
    knob0 := 4095, knob1 := 0, knob2 := 2048 }

-- ---------------------------------------------------------------------------
-- Helper lemmas
-- ---------------------------------------------------------------------------

/-- Bitwise or of a value below 2^k with a value shifted left by k is plain
addition: the bit ranges are disjoint. -/
theorem lor_shiftLeft_add (k : Nat) : ∀ a b : Nat, a < 2 ^ k → a ||| (b <<< k) = a + b * 2 ^ k := by
  induction k with
  | zero =>
    intro a b h
    interval_cases a
    simp [Nat.shiftLeft_eq]
  | succ k ih =>
    intro a b h
    have hd : Nat.bit (Nat.bodd a) (Nat.div2 a) = a := Nat.bit_decomp a
    have hs : b <<< (k + 1) = Nat.bit false (b <<< k) := by
      simp [Nat.bit_val, Nat.shiftLeft_eq, Nat.pow_succ]
      ring
    rw [← hd, hs, Nat.lor_bit]
    have hlt : Nat.div2 a < 2 ^ k := by
      have hv := Nat.bit_val (Nat.bodd a) (Nat.div2 a)
      rw [hd] at hv
      have h2 : Nat.div2 a = a / 2 := Nat.div2_val a
      omega
    rw [ih (Nat.div2 a) b hlt]
    simp only [Nat.bit_val]
    have h2 : Nat.div2 a = a / 2 := Nat.div2_val a
    have hb : (Nat.bodd a).toNat = a % 2 := by
      cases hob : Nat.bodd a <;> simp [Nat.mod_two_of_bodd, hob]
    have hB : b * 2 ^ (k + 1) = 2 * (b * 2 ^ k) := by ring
    cases hob : Nat.bodd a <;> simp [hob] at hb ⊢ <;> omega

/-- Splitting a 16-bit value into low and high byte and recombining with
or-and-shift gives the value back. -/
theorem lor_byte_decomp (u : Nat) : (u % 256) ||| ((u / 256) <<< 8) = u := by
  have h256 : u % 256 < 2 ^ 8 := by
    have := Nat.mod_lt u (show 0 < 256 by norm_num)
    omega
  rw [lor_shiftLeft_add 8 (u % 256) (u / 256) h256]
  have hp : (2 : Nat) ^ 8 = 256 := by norm_num
  rw [hp]
  omega

/-- Encoding an int16 value as two little-endian bytes and re-extracting it
with the inbound-style reinterpretation is the identity on the int16 range. -/
theorem int16OfBytes_roundtrip (x : Int) (hlo : -32768 ≤ x) (hhi : x ≤ 32767) :
    int16OfBytes (lowByte x) (highByte x) = x := by
  have h1 : 0 ≤ x % 65536 := Int.emod_nonneg x (by norm_num)
  have h2 : x % 65536 < 65536 := Int.emod_lt_of_pos x (by norm_num)
  have hcast : (((x % 65536).toNat : Int)) = x % 65536 := Int.toNat_of_nonneg h1
  have hult : (x % 65536).toNat < 65536 := by omega
  have hdiv : (x % 65536).toNat / 256 % 256 = (x % 65536).toNat / 256 :=
    Nat.mod_eq_of_lt (by omega)
  show (let u := (lowByte x ||| (highByte x <<< 8)) % 65536;
    if u < 32768 then (u : Int) else (u : Int) - 65536) = x
  rw [show lowByte x = (x % 65536).toNat % 256 from rfl,
      show highByte x = (x % 65536).toNat / 256 % 256 from rfl, hdiv,
      lor_byte_decomp ((x % 65536).toNat)]
  have humod : (x % 65536).toNat % 65536 = (x % 65536).toNat := Nat.mod_eq_of_lt hult
  simp only [humod]
  split <;> omega

-- ---------------------------------------------------------------------------
-- C5: latest-wins overwrite of an undrained snapshot
-- ---------------------------------------------------------------------------

/-- C5: if publishSnapshot is called twice before takeSnapshotIfReady, the
intermediate state is indistinguishable from publishing only the second
snapshot — so no later operation can observe the first call data and no
error indication records the loss — and the next takeSnapshotIfReady
returns exactly the second call fields. -/
theorem c5_latest_wins (st : SnapshotState) (s1 s2 : InputSnapshot) :
    publishSnapshot (publishSnapshot st s1) s2 = publishSnapshot st s2 ∧
    takeSnapshotIfReady (publishSnapshot (publishSnapshot st s1) s2) =
      ({ stored := s2, ready := false }, some s2) := by
  constructor <;> rfl

-- ---------------------------------------------------------------------------
-- C6: takeSnapshotIfReady contract
-- ---------------------------------------------------------------------------

/-- C6: takeSnapshotIfReady returns a snapshot exactly when the ready flag
is set; a returned snapshot equals the stored fields and leaves the cell
with ready cleared; with ready clear it returns nothing and changes no
state; and immediately taking again never yields a second snapshot, so each
published snapshot is consumed at most once. -/
theorem c6_take_spec (st : SnapshotState) :
    ((takeSnapshotIfReady st).2.isSome ↔ st.ready = true) ∧
    (∀ s, (takeSnapshotIfReady st).2 = some s →
      s = st.stored ∧ (takeSnapshotIfReady st).1 = { stored := st.stored, ready := false }) ∧
    (st.ready = false → takeSnapshotIfReady st = (st, none)) ∧
    (takeSnapshotIfReady (takeSnapshotIfReady st).1).2 = none := by
  by_cases h : st.ready = true
  · simp [takeSnapshotIfReady, h]
  · have h0 : st.ready = false := by simpa using h
    simp [takeSnapshotIfReady, h0]

/-- Witness for c6_take_spec at a concrete ready cell. -/
theorem c6_take_spec_witness :
    (takeSnapshotIfReady { stored := zeroSnapshot, ready := true }).1 =
      { stored := zeroSnapshot, ready := false } :=
  ((c6_take_spec { stored := zeroSnapshot, ready := true }).2.1 zeroSnapshot (by decide)).2

-- ---------------------------------------------------------------------------
-- C9: reachable-state invariant of the decoder
-- ---------------------------------------------------------------------------

/-- The decoder step preserves the accumulation invariant. -/
theorem decodeStep_inv (p : ParserState) (b : Nat) (h : parserInvariant p) :
    parserInvariant (decodeStep p b).1 := by
  obtain ⟨h1, h2⟩ := h
  by_cases hc1 : 0 < p.length ∧ b = SYNC_HOST_TO_DEVICE
  · simp [decodeStep, hc1, parserInvariant, hc1.2]
  · by_cases hc2 : p.length = 0 ∧ b ≠ SYNC_HOST_TO_DEVICE
    · simp [decodeStep, hc1, hc2, parserInvariant]
    · by_cases hc3 : (p ++ [b]).length = OUTPUT_PACKET_SIZE
      · have hstep : decodeStep p b = ([], some (p ++ [b])) := by
          simp only [decodeStep, if_neg hc1, if_neg hc2]
          simp [hc3]
        rw [hstep]
        exact ⟨by simp, by simp⟩
      · refine ⟨?_, ?_⟩
        · simp only [decodeStep, if_neg hc1, if_neg hc2, if_neg hc3]
          simp only [OUTPUT_PACKET_SIZE, List.length_append, List.length_singleton] at hc3 ⊢
          omega
        · simp only [decodeStep, if_neg hc1, if_neg hc2, if_neg hc3]
          intro _
          cases p with
          | nil =>
            have hb : b = SYNC_HOST_TO_DEVICE := by
              by_contra hne
              exact hc2 ⟨rfl, hne⟩
            simp [hb]
          | cons x xs =>
            have := h2 (by simp)
            simpa using this

/-- Feeding any byte list preserves the accumulation invariant. -/
theorem decodeBytes_inv (bs : List Nat) : ∀ p, parserInvariant p →
    parserInvariant (decodeBytes p bs).1 := by
  induction bs with
  | nil => intro p h; exact h
  | cons b rest ih => intro p h; exact ih _ (decodeStep_inv p b h)

/-- C9: every decoder state reachable from the empty state satisfies the
invariant: the fill cursor is in 0..9 (strictly below the 10-byte frame
length, so every buffer write is in bounds) and a non-empty accumulation
starts with the inbound sync marker 0xC0. -/
theorem c9_parser_invariant (bs : List Nat) : parserInvariant (decodeBytes [] bs).1 :=
  decodeBytes_inv bs [] ⟨by simp, by simp⟩

-- ---------------------------------------------------------------------------
-- C10: per-channel activity LED values
-- ---------------------------------------------------------------------------

/-- C10 counterexample: with target channel 1 set to 4096 (a representable
int16 value), the sampler tick writes activity indicator 8192, which is
outside the indicator range 0..4095; and at target -32768 the doubled
absolute value 65536 is truncated to 0, so the indicator does not equal
2 times the absolute value there either. -/
theorem c10_led_cex :
    (processMainSample { flags := 0, ch1 := 4096, ch2 := 0, ch3 := 0, ch4 := 0 } 0
        hwZero).1.getD 0 0 = 8192 ∧
    ¬ (8192 : Nat) ≤ 4095 ∧
    ledValue (-32768) = 0 ∧ 2 * Int.natAbs (-32768) = 65536 := by decide

/-- C10 amended: every sampler tick writes, for channel i, the indicator
(2 * |target_i|) mod 2^16; this equals 2 * |target_i| for every int16
target except -32768, and it lies within 0..4095 whenever |target_i| is at
most 2047 (note -2048, though in the hardware range, yields 4096). -/
theorem c10_led_values (tg : OutputTargetSet) (c : Nat) (hw : HwInputs) :
    ((processMainSample tg c hw).1 =
      [ledValue tg.ch1, ledValue tg.ch2, ledValue tg.ch3, ledValue tg.ch4]) ∧
    (∀ v : Int, -32767 ≤ v → v ≤ 32767 → ledValue v = 2 * v.natAbs) ∧
    (∀ v : Int, -2047 ≤ v → v ≤ 2047 → ledValue v = 2 * v.natAbs ∧ ledValue v ≤ 4095) := by
  refine ⟨?_, ?_, ?_⟩
  · by_cases h : INPUT_REPORT_INTERVAL ≤ c + 1 <;> simp [processMainSample, h]
  · intro v hlo hhi
    have : v.natAbs ≤ 32767 := by omega
    unfold ledValue
    omega
  · intro v hlo hhi
    have : v.natAbs ≤ 2047 := by omega
    unfold ledValue
    omega

/-- Witness for c10_led_values at target value 100. -/
theorem c10_led_values_witness : ledValue 100 = 200 ∧ ledValue 100 ≤ 4095 := by
  have h := (c10_led_values { flags := 0, ch1 := 0, ch2 := 0, ch3 := 0, ch4 := 0 } 0
    hwZero).2.2 100 (by norm_num) (by norm_num)
  simpa using h

-- ---------------------------------------------------------------------------
-- C8: the output targets change only on a complete decoded frame
-- ---------------------------------------------------------------------------

/-- The send block never touches the output targets. -/
theorem sendPhase_targets (st : BridgeState) : (sendPhase st).1.targets = st.targets := by
  by_cases h : st.snap.ready = true <;> simp [sendPhase, takeSnapshotIfReady, h]

/-- C8: the output-target set starts all zero and is mutated only when a
complete 10-byte frame is decoded: an iteration whose inbound byte does not
complete a frame leaves all its fields unchanged, an iteration with no
inbound byte leaves them unchanged, and the snapshot-transmission step
leaves them unchanged. -/
theorem c8_targets_mutation (st : BridgeState) (b : Nat) :
    initialBridgeState.targets = { flags := 0, ch1 := 0, ch2 := 0, ch3 := 0, ch4 := 0 } ∧
    ((decodeStep st.parser (b % 256)).2 = none →
      (usbLoopIter st (some b)).1.targets = st.targets) ∧
    (usbLoopIter st none).1.targets = st.targets ∧
    (sendPhase st).1.targets = st.targets := by
  refine ⟨rfl, ?_, sendPhase_targets st, sendPhase_targets st⟩
  intro h
  unfold usbLoopIter
  by_cases hs : skipsSend st.parser (b % 256) = true
  · simp [hs, h]
  · have hs0 : skipsSend st.parser (b % 256) = false := by simpa using hs
    simp [hs0, h, sendPhase_targets]

/-- Witness for c8_targets_mutation: a non-sync byte arriving in the initial
state leaves the targets unchanged. -/
theorem c8_targets_mutation_witness :
    (usbLoopIter initialBridgeState (some 0x11)).1.targets = initialBridgeState.targets :=
  (c8_targets_mutation initialBridgeState 0x11).2.1 (by decide)

-- ---------------------------------------------------------------------------
-- C7: iteration structure of the USB loop
-- ---------------------------------------------------------------------------

/-- C7 counterexample: with a snapshot ready and an empty accumulation, the
iteration that receives the discarded byte 0x00 transmits nothing, while
the iteration with no inbound byte transmits the 16-byte telemetry frame —
so outbound transmission within an iteration is conditioned on the inbound
byte, contradicting the claimed independence of the two directions. -/
theorem c7_independence_cex :
    (usbLoopIter readyBridgeState (some 0x00)).2 = [] ∧
    (usbLoopIter readyBridgeState none).2 = encodeSnapshot zeroSnapshot ∧
    encodeSnapshot zeroSnapshot ≠ [] := by decide

/-- C7 amended: each iteration performs inbound processing first and
outbound transmission second, and the inbound result never depends on the
snapshot cell; however, an iteration whose inbound byte is discarded while
waiting for sync or triggers resynchronization skips outbound transmission
entirely for that iteration, leaving the snapshot cell untouched (the
transmission is deferred, not conditioned on any received command frame);
in all other iterations the transmitted bytes and resulting snapshot cell
are exactly those of an iteration with no inbound byte. -/
theorem c7_ordering (st : BridgeState) (inb : Option Nat) :
    (usbLoopIter st inb =
      (match inb with
       | some c => if skipsSend st.parser (c % 256) then (inboundStep st inb, [])
                   else sendPhase (inboundStep st inb)
       | none => sendPhase (inboundStep st inb))) ∧
    (∀ sn, (inboundStep { st with snap := sn } inb).parser = (inboundStep st inb).parser ∧
      (inboundStep { st with snap := sn } inb).targets = (inboundStep st inb).targets) ∧
    (∀ c, skipsSend st.parser (c % 256) = false →
      (usbLoopIter st (some c)).2 = (usbLoopIter st none).2 ∧
      (usbLoopIter st (some c)).1.snap = (usbLoopIter st none).1.snap) ∧
    (∀ c, skipsSend st.parser (c % 256) = true →
      (usbLoopIter st (some c)).2 = [] ∧ (usbLoopIter st (some c)).1.snap = st.snap) := by
  refine ⟨?_, ?_, ?_, ?_⟩
  · cases inb <;> rfl
  · intro sn
    cases inb <;> exact ⟨rfl, rfl⟩
  · intro c hc
    unfold usbLoopIter
    by_cases hr : st.snap.ready = true <;>
      simp [hc, sendPhase, takeSnapshotIfReady, hr]
  · intro c hc
    unfold usbLoopIter
    simp [hc]

/-- Witness for c7_ordering: a sync byte starting a frame in the ready
state does not suppress that iteration transmission. -/
theorem c7_ordering_witness :
    (usbLoopIter readyBridgeState (some 0xC0)).2 = (usbLoopIter readyBridgeState none).2 :=
  ((c7_ordering readyBridgeState (some 0xC0)).2.2.1 0xC0 (by decide)).1

-- ---------------------------------------------------------------------------
-- C1 / C2: decoder framing
-- ---------------------------------------------------------------------------

/-- Decoding a concatenation is decoding the parts in sequence, carrying the
state across the boundary. -/
theorem decodeBytes_append (xs ys : List Nat) : ∀ p,
    decodeBytes p (xs ++ ys) =
      ((decodeBytes (decodeBytes p xs).1 ys).1,
       (decodeBytes p xs).2 ++ (decodeBytes (decodeBytes p xs).1 ys).2) := by
  induction xs with
  | nil => intro p; simp [decodeBytes]
  | cons b rest ih =>
    intro p
    simp [decodeBytes, ih (decodeStep p b).1, List.append_assoc]

/-- Chunked delivery equals whole delivery: feeding any partition of a byte
stream into sub-chunks produces the same final state and the same emitted
frames as feeding the flattened stream. -/
theorem processChunks_eq_flatten (cs : List (List Nat)) : ∀ p,
    processChunks p cs = decodeBytes p cs.flatten := by
  induction cs with
  | nil => intro p; simp [processChunks, decodeBytes]
  | cons c rest ih =>
    intro p
    simp [processChunks, decodeBytes_append, ih]

/-- Mid-frame accumulation: from a non-empty accumulation, feeding
sync-free payload bytes that bring the total to exactly 10 completes
exactly the frame made of the accumulated and fed bytes. -/
theorem decodeBytes_fill (body : List Nat) : ∀ p : ParserState,
    (∀ b ∈ body, b ≠ SYNC_HOST_TO_DEVICE) → 0 < p.length →
    p.length + body.length = OUTPUT_PACKET_SIZE → body ≠ [] →
    decodeBytes p body = ([], [p ++ body]) := by
  induction body with
  | nil => intro p _ _ _ hne; exact absurd rfl hne
  | cons b rest ih =>
    intro p hb hp hlen _
    have hbne : b ≠ SYNC_HOST_TO_DEVICE := hb b (by simp)
    have hp0 : ¬ (p.length = 0) := by omega
    have hnc1 : ¬ (0 < p.length ∧ b = SYNC_HOST_TO_DEVICE) := by
      intro hcc
      exact hbne hcc.2
    have hnc2 : ¬ (p.length = 0 ∧ b ≠ SYNC_HOST_TO_DEVICE) := by
      intro hcc
      exact hp0 hcc.1
    cases rest with
    | nil =>
      have h10 : (p ++ [b]).length = OUTPUT_PACKET_SIZE := by
        simp at hlen ⊢
        omega
      have hstep : decodeStep p b = ([], some (p ++ [b])) := by
        simp only [decodeStep, if_neg hnc1, if_neg hnc2]
        simp [h10]
      simp [decodeBytes, hstep]
    | cons b2 rest2 =>
      have hne10 : ¬ (p.length + 1 = OUTPUT_PACKET_SIZE) := by
        unfold OUTPUT_PACKET_SIZE at hlen ⊢
        simp at hlen
        omega
      have hstep : decodeStep p b = (p ++ [b], none) := by
        simp only [decodeStep, if_neg hnc1, if_neg hnc2]
        simp [hne10]
      have hrest := ih (p ++ [b]) (fun x hx => hb x (List.mem_cons_of_mem b hx))
        (by simp) (by unfold OUTPUT_PACKET_SIZE at hlen ⊢; simp at hlen ⊢; omega) (by simp)
      have hsplit : decodeBytes p (b :: b2 :: rest2) =
          ((decodeBytes (decodeStep p b).1 (b2 :: rest2)).1,
           (decodeStep p b).2.toList ++ (decodeBytes (decodeStep p b).1 (b2 :: rest2)).2) := rfl
      rw [hsplit, hstep]
      simp [hrest, List.append_assoc]

/-- C1 amended: a valid 10-byte inbound frame whose payload bytes (indices
1..9) are all distinct from the sync marker 0xC0 decodes, from the empty
state, to exactly one completed frame equal to the fed bytes — and this
holds for every partition of the frame into sub-chunks, with the same
decoded frame (hence equal flags and channel fields) as feeding it whole. -/
theorem c1_chunked_decode (frame : List Nat) (chunks : List (List Nat))
    (hlen : frame.length = OUTPUT_PACKET_SIZE)
    (hsync : frame.head? = some SYNC_HOST_TO_DEVICE)
    (hbody : ∀ b ∈ frame.tail, b ≠ SYNC_HOST_TO_DEVICE)
    (hjoin : chunks.flatten = frame) :
    processChunks [] chunks = ([], [frame]) ∧
    decodeBytes [] frame = ([], [frame]) := by
  have hwhole : decodeBytes [] frame = ([], [frame]) := by
    cases frame with
    | nil => simp [OUTPUT_PACKET_SIZE] at hlen
    | cons a body =>
      have ha : a = SYNC_HOST_TO_DEVICE := by simpa using hsync
      have hbody2 : ∀ b ∈ body, b ≠ SYNC_HOST_TO_DEVICE := by simpa using hbody
      have hblen : body.length = 9 := by
        simp [OUTPUT_PACKET_SIZE] at hlen
        omega
      have hstep : decodeStep [] a = ([a], none) := by
        simp [decodeStep, ha, OUTPUT_PACKET_SIZE]
      have hrest := decodeBytes_fill body [a] hbody2 (by simp)
        (by simp [OUTPUT_PACKET_SIZE, hblen]) (by intro hcc; rw [hcc] at hblen; simp at hblen)
      simp [decodeBytes, hstep, hrest]
  exact ⟨by rw [processChunks_eq_flatten, hjoin]; exact hwhole, hwhole⟩

/-- Witness for c1_chunked_decode: the frame of the spec concrete scenario
(flags 0, channel 1 = 0x0800 = 2048) delivered one byte at a time. -/
theorem c1_chunked_decode_witness :
    processChunks [] [[0xC0], [0x00], [0x00], [0x08], [0], [0], [0], [0], [0], [0]] =
      ([], [[0xC0, 0x00, 0x00, 0x08, 0, 0, 0, 0, 0, 0]]) :=
  (c1_chunked_decode [0xC0, 0x00, 0x00, 0x08, 0, 0, 0, 0, 0, 0]
    [[0xC0], [0x00], [0x00], [0x08], [0], [0], [0], [0], [0], [0]]
    (by decide) (by decide) (by decide) (by decide)).1

/-- C1 counterexample: the 10-byte sequence starting with the sync marker
whose second byte is again the sync marker is a valid frame in the sense of
the claim (first byte 0xC0, length 10), yet feeding it whole emits no
completed frame at all: the embedded sync byte triggers resynchronization
and the decoder ends mid-frame with 9 bytes accumulated. -/
theorem c1_sync_payload_cex :
    decodeBytes [] [0xC0, 0xC0, 0, 0, 0, 0, 0, 0, 0, 0] =
      ([0xC0, 0, 0, 0, 0, 0, 0, 0, 0], []) := by decide

/-- C2: feeding sync, 0x11, sync, 0x22 and six zero bytes emits no frame
(in particular none from the first two bytes); the decoder discards the
first two bytes and restarts at the second sync byte, holding the 8 bytes
from index 2 onward; any two further non-sync bytes then complete exactly
one frame consisting of the 10 bytes from index 2 onward. -/
theorem c2_resync (b1 b2 : Nat) (h1 : b1 ≠ SYNC_HOST_TO_DEVICE) (h2 : b2 ≠ SYNC_HOST_TO_DEVICE) :
    (decodeBytes [] (resyncSeq.take 2)).2 = [] ∧
    decodeBytes [] resyncSeq = ([0xC0, 0x22, 0, 0, 0, 0, 0, 0], []) ∧
    decodeBytes [] (resyncSeq ++ [b1, b2]) =
      ([], [[0xC0, 0x22, 0, 0, 0, 0, 0, 0, b1, b2]]) := by
  refine ⟨by decide, by decide, ?_⟩
  have hmid : decodeBytes [] resyncSeq = ([0xC0, 0x22, 0, 0, 0, 0, 0, 0], []) := by decide
  rw [decodeBytes_append, hmid]
  have hfill := decodeBytes_fill [b1, b2] [0xC0, 0x22, 0, 0, 0, 0, 0, 0]
    (by intro x hx; simp at hx; rcases hx with h | h <;> simp [h, h1, h2])
    (by simp) (by simp [OUTPUT_PACKET_SIZE]) (by simp)
  simp [hfill]

/-- Witness for c2_resync with the two further bytes both zero. -/
theorem c2_resync_witness :
    decodeBytes [] (resyncSeq ++ [0, 0]) = ([], [[0xC0, 0x22, 0, 0, 0, 0, 0, 0, 0, 0]]) :=
  (c2_resync 0 0 (by decide) (by decide)).2.2

-- ---------------------------------------------------------------------------
-- C3: encode / extract round trip
-- ---------------------------------------------------------------------------

/-- Field extraction on an explicit 16-byte list. -/
theorem extractSnapshotFields_explicit
    (a0 a1 a2 a3 a4 a5 a6 a7 a8 a9 a10 a11 a12 a13 a14 a15 : Nat) :
    extractSnapshotFields [a0, a1, a2, a3, a4, a5, a6, a7, a8, a9, a10, a11, a12, a13, a14, a15] =
      (a1, int16OfBytes a2 a3, int16OfBytes a4 a5, int16OfBytes a6 a7, int16OfBytes a8 a9,
       int16OfBytes a10 a11, int16OfBytes a12 a13, int16OfBytes a14 a15) := rfl

/-- C3: for every InputSnapshot with fields in their valid ranges, applying
the inbound-style little-endian int16 extraction to the 16-byte encoder
output reproduces the flags byte and all seven int16 fields exactly. -/
theorem c3_roundtrip (s : InputSnapshot) (hv : validSnapshot s) :
    extractSnapshotFields (encodeSnapshot s) =
      (s.flags, s.cv0, s.cv1, s.audio0, s.audio1, s.knob0, s.knob1, s.knob2) := by
  obtain ⟨hc0, hc1, ha0, ha1, hk0, hk1, hk2, d, sw, hd, hsw, hf⟩ := hv
  show extractSnapshotFields
      [SYNC_DEVICE_TO_HOST, s.flags % 256,
       lowByte s.cv0, highByte s.cv0,
       lowByte s.cv1, highByte s.cv1,
       lowByte s.audio0, highByte s.audio0,
       lowByte s.audio1, highByte s.audio1,
       lowByte s.knob0, highByte s.knob0,
       lowByte s.knob1, highByte s.knob1,
       lowByte s.knob2, highByte s.knob2] = _
  rw [extractSnapshotFields_explicit]
  have hflags : s.flags % 256 = s.flags := Nat.mod_eq_of_lt (by omega)
  rw [hflags,
    int16OfBytes_roundtrip s.cv0 (by omega) (by omega),
    int16OfBytes_roundtrip s.cv1 (by omega) (by omega),
    int16OfBytes_roundtrip s.audio0 (by omega) (by omega),
    int16OfBytes_roundtrip s.audio1 (by omega) (by omega),
    int16OfBytes_roundtrip s.knob0 (by omega) (by omega),
    int16OfBytes_roundtrip s.knob1 (by omega) (by omega),
    int16OfBytes_roundtrip s.knob2 (by omega) (by omega)]

/-- Witness for c3_roundtrip at the spec concrete outbound scenario:
continuous readings (100, -50), audio (0, 0), knobs (4095, 0, 2048) and
flags 0b0110. -/
theorem c3_roundtrip_witness :
    extractSnapshotFields (encodeSnapshot specSnapshot) =
      (6, 100, -50, 0, 0, 4095, 0, 2048) :=
  c3_roundtrip specSnapshot
    ⟨⟨by decide, by decide⟩, ⟨by decide, by decide⟩, ⟨by decide, by decide⟩,
     ⟨by decide, by decide⟩, ⟨by decide, by decide⟩, ⟨by decide, by decide⟩,
     ⟨by decide, by decide⟩, 2, 1, by decide, by decide, by decide⟩

-- ---------------------------------------------------------------------------
-- C4: decimation of the sampler publish rate
-- ---------------------------------------------------------------------------

/-- The publish decision and counter update of one sampler tick. -/
theorem processMainSample_publish (tg : OutputTargetSet) (c : Nat) (hw : HwInputs) :
    (processMainSample tg c hw).2 =
      (if 48 ≤ c + 1 then 0 else c + 1,
       if 48 ≤ c + 1 then some (snapshotOfHw hw) else none) := by
  by_cases h : 48 ≤ c + 1 <;> simp [processMainSample, INPUT_REPORT_INTERVAL, h]

/-- Closed form of the per-tick publish flags from any in-range counter. -/
theorem runSampler_publish_form (l : List (OutputTargetSet × HwInputs)) : ∀ c, c < 48 →
    (runSamplerFrom c l).2 =
      (List.range l.length).map (fun t => decide ((c + t + 1) % 48 = 0)) := by
  induction l with
  | nil => intro c hc; simp [runSamplerFrom]
  | cons x rest ih =>
    intro c hc
    have hsplit : runSamplerFrom c (x :: rest) =
        ((runSamplerFrom (processMainSample x.1 c x.2).2.1 rest).1,
         (processMainSample x.1 c x.2).2.2.isSome ::
           (runSamplerFrom (processMainSample x.1 c x.2).2.1 rest).2) := rfl
    rw [hsplit]
    rw [List.length_cons, List.range_succ_eq_map]
    by_cases h47 : c = 47
    · subst h47
      rw [processMainSample_publish]
      simp only [List.map_cons, List.map_map, List.cons.injEq]
      refine ⟨by simp, ?_⟩
      have hif : (if 48 ≤ 47 + 1 then (0 : Nat) else 47 + 1) = 0 := by norm_num
      rw [hif, ih 0 (by norm_num)]
      apply List.map_congr_left
      intro t _
      simp only [Function.comp_apply]
      rw [decide_eq_decide]
      omega
    · have hlt : c + 1 < 48 := by omega
      rw [processMainSample_publish]
      simp only [if_neg (by omega : ¬ 48 ≤ c + 1), List.map_cons, List.map_map,
        List.cons.injEq]
      refine ⟨?_, ?_⟩
      · rw [Option.isSome_none, eq_comm, decide_eq_false_iff_not]
        omega
      · rw [ih (c + 1) hlt]
        apply List.map_congr_left
        intro t _
        simp only [Function.comp_apply]
        rw [decide_eq_decide]
        omega

/-- Counting the publishes over the first N ticks. -/
theorem countTrue_range (N : Nat) :
    ((List.range N).map (fun t => decide ((t + 1) % 48 = 0))).count true = N / 48 := by
  induction N with
  | zero => simp
  | succ n ih =>
    rw [List.range_succ, List.map_append, List.count_append, ih]
    simp only [List.map_cons, List.map_nil]
    by_cases h : (n + 1) % 48 = 0
    · simp [h]
      omega
    · simp [h]
      omega

/-- C4: the decimation constant is 48, and over any sequence of N sampler
ticks starting from a zero counter, publishSnapshot fires exactly
floor(N / 48) times, exactly at the ticks whose 1-based index is a
multiple of 48. -/
theorem c4_decimation (l : List (OutputTargetSet × HwInputs)) :
    INPUT_REPORT_INTERVAL = 48 ∧
    (runSamplerFrom 0 l).2.count true = l.length / 48 ∧
    (∀ t, t < l.length →
      ((runSamplerFrom 0 l).2.getD t false = true ↔ (t + 1) % 48 = 0)) := by
  have hform := runSampler_publish_form l 0 (by norm_num)
  have hzero : (fun t => decide ((0 + t + 1) % 48 = 0)) = fun t : Nat => decide ((t + 1) % 48 = 0) := by
    funext t
    rw [decide_eq_decide]
    omega
  rw [hzero] at hform
  refine ⟨rfl, ?_, ?_⟩
  · rw [hform, countTrue_range]
  · intro t ht
    rw [hform, List.getD_eq_getElem?_getD, List.getElem?_map, List.getElem?_range ht]
    simp

/-- Witness for c4_decimation on 48 idle ticks: exactly one publish. -/
theorem c4_decimation_witness :
    (runSamplerFrom 0 (List.replicate 48 idleTick)).2.count true = 1 := by
  have h := (c4_decimation (List.replicate 48 idleTick)).2.1
  simpa using h
